import Mathlib

/-!
Verification development for the capstone forecasting backend.

Shallow embedding of:
  * backend/data_engine/forecasting/base_forecaster.py  (BaseForecastor, SimpleForecaster)
  * backend/data_engine/forecasting/lstm_model.py       (LSTMForecastor)
  * backend/data_engine/forecasting/prophet_model.py    (ProphetForecaster)
  * backend/app/api/v1/endpoints/forecast.py            (_horizon_label,
        _validate_interval_minimums, the forecast endpoints)
  * backend/schemas/forecast.py                         (INTERVAL_CONFIG)
  * backend/data_engine/coordinator.py                  (DataCoordinator, raising variant)
  * backend/data_engine/data_coordinator.py             (DataCoordinator, silent variant)

Modelling conventions:
  * Python floats are idealised as exact rationals (for everything the code
    computes with field arithmetic) and as reals where the code calls
    transcendental functions (scipy's norm.ppf, numpy's sqrt).
  * `round(x, 4)` (Python round-half-to-even at the 4th decimal) is embedded
    as `round4` below, built from a half-even integer rounding `rhe`.
  * Timestamps are integer day numbers; `dt.isoformat()` is injective and
    monotone in the timestamp, so dates are kept as integers.
  * External neural / Prophet library calls are abstract function parameters:
    the repository code treats their outputs as opaque values.
-/

/-- Truncation toward zero, the behaviour of Python's `int()` on a float. -/
def intTrunc (q : ℚ) : ℤ :=
  if 0 ≤ q then ⌊q⌋ else ⌈q⌉

/-- Round half to even of the fraction `a / b` (for `b > 0`): Python's
builtin `round(a / b)`.  Returns the nearest integer; exact ties go to the
even neighbour.  Expressed with integer division so that it evaluates by
`decide`. -/
def rheDiv (a b : ℤ) : ℤ :=
  let q := a / b
  let r := a % b
  if 2 * r < b then q else if b < 2 * r then q + 1 else if Even q then q else q + 1

open Classical in
/-- Round half to even on reals (same rule as `rheQ`, for quantities the code
computes via scipy/numpy that are irrational in the idealised model). -/
noncomputable def rhe (x : ℝ) : ℤ :=
  if x - ⌊x⌋ < 1/2 then ⌊x⌋
  else if 1/2 < x - ⌊x⌋ then ⌊x⌋ + 1
  else if Even ⌊x⌋ then ⌊x⌋ else ⌊x⌋ + 1

/-- Python's `round(x, 4)`: round half to even at the fourth decimal place. -/
noncomputable def round4 (x : ℝ) : ℝ :=
  (rhe (x * 10000) : ℝ) / 10000

/-- In-memory price series handed to a forecaster's `fit`
(a pandas Series in the source).  `rows` pairs a timestamp (day number)
with a close price; `none` models a NaN value.  `isDatetimeIndex` records
whether the pandas index is a DatetimeIndex (the `isinstance` check in
`_validate_prices`; a non-Series argument is unrepresentable in the typed
embedding). -/
structure PSeries where
  isDatetimeIndex : Bool
  rows : List (ℤ × Option ℚ)
deriving DecidableEq, Repr

/-- The numeric values of the series (NaN entries dropped; after validation
succeeds there are none). -/
def seriesVals (p : PSeries) : List ℚ :=
  p.rows.filterMap (fun r => r.2)

/-- The timestamp index of the series. -/
def seriesIdx (p : PSeries) : List ℤ :=
  p.rows.map (fun r => r.1)

/-- Errors raised by the forecasting layer.  `typeErrorIndex` models the
TypeError for a non-DatetimeIndex, `tooFewSamples` and `containsNaN` the two
ValueErrors of `_validate_prices`, `noSequences` the ValueError raised by
`LSTMForecastor.fit` when no training windows can be built, `invalidSpan`
pandas' ValueError "span must satisfy: span >= 1" raised by
`prices.ewm(span=...)`, and `medianOfEmpty` the ValueError numpy raises when
`_infer_freq_days` computes `int(np.median([]))` on a single-point index. -/
inductive FitError where
  | typeErrorIndex
  | tooFewSamples
  | containsNaN
  | noSequences
  | invalidSpan
  | medianOfEmpty
deriving DecidableEq, Repr

/-- Whether an `Except` result is a success. -/
def isOkE {ε α : Type} : Except ε α → Bool
  | .ok _ => true
  | .error _ => false

namespace BaseForecastor

/-- `BaseForecastor._validate_prices(prices, min_samples)`: checks the index
type, the minimum length, and the absence of NaN values — in that order.
It does NOT check that timestamps are ordered. -/
def validate_prices (p : PSeries) (min_samples : ℕ) : Except FitError Unit :=
  if p.isDatetimeIndex = false then .error .typeErrorIndex
  else if p.rows.length < min_samples then .error .tooFewSamples
  else if p.rows.any (fun r => r.2.isNone) then .error .containsNaN
  else .ok ()

/-- Consecutive differences of the index (`np.diff`). -/
def diffsOf : List ℤ → List ℤ
  | a :: b :: rest => (b - a) :: diffsOf (b :: rest)
  | _ => []

/-- Insertion into a sorted list (ascending), helper for the median. -/
def insertSorted (x : ℤ) : List ℤ → List ℤ
  | [] => [x]
  | y :: ys => if x ≤ y then x :: y :: ys else y :: insertSorted x ys

/-- Ascending sort (models `np.sort` inside `np.median`). -/
def sortInts (l : List ℤ) : List ℤ :=
  l.foldr insertSorted []

/-- `np.median` of an integer list as an exact rational (the middle element,
or the mean of the two middle elements).  `np.median` of an empty array is
NaN in Python and `int(NaN)` raises; every `fit` below models that crash
with an explicit `medianOfEmpty` branch, so this function is only consulted
on a nonempty list (the 0 returned on `[]` is never read). -/
def medianQ (l : List ℤ) : ℚ :=
  let s := sortInts l
  let n := s.length
  if n = 0 then 0
  else if n % 2 = 1 then ((s.getD (n / 2) 0 : ℤ) : ℚ)
  else (((s.getD (n / 2 - 1) 0 + s.getD (n / 2) 0 : ℤ) : ℚ)) / 2

/-- `BaseForecastor._infer_freq_days`: median step of the index in days,
truncated to int, floored at one day.  On a single-point index the source
raises (`int(np.median([]))` is `int(NaN)`): the fits below return
`medianOfEmpty` before recording this value whenever `diffsOf idx = []`,
so the function is only consulted with a nonempty diff list. -/
def infer_freq_days (idx : List ℤ) : ℤ :=
  max (intTrunc (medianQ (diffsOf idx))) 1

end BaseForecastor

/-- Output of one `forecast()` call: parallel lists of future timestamps,
point forecasts, lower bounds and upper bounds. -/
structure ForecastOut where
  dates : List ℤ
  point_forecast : List ℝ
  lower_bound : List ℝ
  upper_bound : List ℝ

/-- The uncertainty margin `z * std * sqrt(step)` shared by the EWM and LSTM
models (`step` is the 1-indexed future step). -/
noncomputable def forecastMargin (z std : ℝ) (step : ℕ) : ℝ :=
  z * std * Real.sqrt step

namespace SimpleForecaster

/-- `prices.ewm(span=span, adjust=False).mean()` recursion after the seed:
`e_t = (1 - a) * e_(t-1) + a * x_t`. -/
def emaFrom (a e : ℚ) : List ℚ → List ℚ
  | [] => []
  | x :: xs =>
    let e2 := (1 - a) * e + a * x
    e2 :: emaFrom a e2 xs

/-- Full EWM list; the first smoothed value is the first price. -/
def emaList (a : ℚ) : List ℚ → List ℚ
  | [] => []
  | x :: xs => x :: emaFrom a x xs

/-- The smoothing coefficient pandas derives from a span: `a = 2/(span+1)`. -/
def alphaOfSpan (span : ℕ) : ℚ :=
  2 / ((span : ℚ) + 1)

/-- Arithmetic mean of a rational list. -/
def meanQ (l : List ℚ) : ℚ :=
  l.sum / (l.length : ℚ)

/-- `Series.std()` with pandas' default ddof=1, squared (the sample
variance `Σ (r - mean)² / (n - 1)`).  For n ≤ 1 pandas yields NaN; the
embedding yields 0 — theorems about the fitted state assume n ≥ 2 where the
distinction could matter. -/
def sampleVar (l : List ℚ) : ℚ :=
  (l.map (fun r => (r - meanQ l) ^ 2)).sum / ((l.length : ℚ) - 1)

/-- Fitted state of `SimpleForecaster` after `fit`: the final smoothed value,
the residual variance (its square root is the residual std), the inferred
step in days and the last training timestamp. -/
structure FitState where
  span : ℕ
  lastEma : ℚ
  resVar : ℚ
  freqDays : ℤ
  lastDate : ℤ
deriving DecidableEq, Repr

/-- `SimpleForecaster.fit`: validate (min_samples = span), smooth with EWM,
record residual variance, final smoothed value, inferred frequency and last
timestamp.  Two further failure paths of the source are modelled: pandas'
`ewm(span=...)` raises ValueError for span < 1 (`invalidSpan`), and
`_infer_freq_days` raises on a single-point index (`medianOfEmpty`, from
`int(np.median([]))`); the ewm check fires first, as in the source. -/
def fit (span : ℕ) (p : PSeries) : Except FitError FitState :=
  match BaseForecastor.validate_prices p span with
  | .error e => .error e
  | .ok _ =>
    if span < 1 then .error .invalidSpan
    else if BaseForecastor.diffsOf (seriesIdx p) = [] then .error .medianOfEmpty
    else
      let vals := seriesVals p
      let emas := emaList (alphaOfSpan span) vals
      let residuals := List.zipWith (fun x e => x - e) vals emas
      .ok { span := span
            lastEma := emas.getLast?.getD 0
            resVar := sampleVar residuals
            freqDays := BaseForecastor.infer_freq_days (seriesIdx p)
            lastDate := (seriesIdx p).getLast?.getD 0 }

/-- `residual_std` of the fitted model (`float(residuals.std())`). -/
noncomputable def residualStd (st : FitState) : ℝ :=
  Real.sqrt (st.resVar : ℝ)

/-- `SimpleForecaster.forecast(periods)`.  `z` is the external
`scipy.stats.norm.ppf((1 + confidence_level) / 2)` value — nonnegative for
every confidence level in [0.5, 0.99].  For each 1-indexed step `i`
the point forecast is the (rounded) last smoothed value, the margin is
`z * residual_std * sqrt(i)`, and the date is
`last_date + freq_days * i`. -/
noncomputable def forecast (z : ℝ) (st : FitState) (periods : ℕ) : ForecastOut :=
  { dates := (List.range periods).map fun i : ℕ => st.lastDate + st.freqDays * ((i : ℤ) + 1)
    point_forecast := (List.range periods).map fun _ => round4 (st.lastEma : ℝ)
    lower_bound := (List.range periods).map fun i =>
      round4 ((st.lastEma : ℝ) - forecastMargin z (residualStd st) (i + 1))
    upper_bound := (List.range periods).map fun i =>
      round4 ((st.lastEma : ℝ) + forecastMargin z (residualStd st) (i + 1)) }

end SimpleForecaster

namespace LSTMForecastor

/-- Minimum of a rational list (`prices.min()`; 0 only for the empty list,
which validation rules out). -/
def minQ : List ℚ → ℚ
  | [] => 0
  | x :: xs => xs.foldl min x

/-- Maximum of a rational list (`prices.max()`). -/
def maxQ : List ℚ → ℚ
  | [] => 0
  | x :: xs => xs.foldl max x

/-- The divisor of sklearn's MinMaxScaler with feature range (0, 1):
the data range, with a zero range replaced by 1
(`_handle_zeros_in_scale`). -/
def scaleDenom (mn mx : ℚ) : ℚ :=
  if mx - mn = 0 then 1 else mx - mn

/-- `_create_sequences`: the overlapping input windows
`flat[i : i + lookback]`. -/
def seqX (lookback : ℕ) (flat : List ℚ) : List (List ℚ) :=
  (List.range (flat.length - lookback)).map fun i => (flat.drop i).take lookback

/-- `_create_sequences`: the labels `flat[i + lookback]`. -/
def seqY (lookback : ℕ) (flat : List ℚ) : List ℚ :=
  (List.range (flat.length - lookback)).map fun i => flat.getD (i + lookback) 0

/-- Population variance (`np.std(...)**2`, ddof=0). -/
def popVar (l : List ℚ) : ℚ :=
  (l.map (fun r => (r - SimpleForecaster.meanQ l) ^ 2)).sum / (l.length : ℚ)

/-- Fitted state of `LSTMForecastor` after `fit`.  The trained network itself
is external (TensorFlow); forecasting takes the network's prediction
function as a parameter.  `useFallback` records whether the validation
partition was empty, in which case the uncertainty estimate falls back to 5%
of the observed price range (`fallbackStd`) instead of the validation
residual std `sqrt(valResVar)`. -/
structure FitState where
  lookback : ℕ
  scalerMin : ℚ
  scalerD : ℚ
  scaledPrices : List ℚ
  useFallback : Bool
  valResVar : ℚ
  fallbackStd : ℚ
  freqDays : ℤ
  lastDate : ℤ
deriving DecidableEq, Repr

/-- `LSTMForecastor.fit`: validate (min_samples = lookback + 1), scale to
[0, 1], build windows, split chronologically by `test_size`, train the
network (external), and record the validation residual variance in the
original price scale — or the 5%-of-range fallback when the validation
partition is empty.  `predict` is the trained network's prediction on one
scaled window.  `_infer_freq_days` runs right after validation in the
source and raises on a single-point index (reachable with lookback = 0):
modelled by the `medianOfEmpty` branch. -/
def fit (predict : List ℚ → ℚ) (lookback : ℕ) (test_size : ℚ) (p : PSeries) :
    Except FitError FitState :=
  match BaseForecastor.validate_prices p (lookback + 1) with
  | .error e => .error e
  | .ok _ =>
    if BaseForecastor.diffsOf (seriesIdx p) = [] then .error .medianOfEmpty
    else
    let vals := seriesVals p
    let mn := minQ vals
    let mx := maxQ vals
    let d := scaleDenom mn mx
    let scaled := vals.map fun x => (x - mn) / d
    if scaled.length ≤ lookback then .error .noSequences
    else
      let X := seqX lookback scaled
      let y := seqY lookback scaled
      let splitN := (intTrunc ((X.length : ℚ) * (1 - test_size))).toNat
      let Xval := X.drop splitN
      let yval := y.drop splitN
      let inv := fun v : ℚ => v * d + mn
      let errs := List.zipWith (fun a w => inv a - inv (predict w)) yval Xval
      .ok { lookback := lookback
            scalerMin := mn
            scalerD := d
            scaledPrices := scaled
            useFallback := Xval.isEmpty
            valResVar := popVar errs
            fallbackStd := (mx - mn) * (1/20)
            freqDays := BaseForecastor.infer_freq_days (seriesIdx p)
            lastDate := (seriesIdx p).getLast?.getD 0 }

/-- `_val_residual_std` of the fitted model. -/
noncomputable def valStd (st : FitState) : ℝ :=
  if st.useFallback then (st.fallbackStd : ℝ) else Real.sqrt (st.valResVar : ℝ)

/-- Iterative multi-step prediction: feed the last `lookback` entries of the
rolling window to the network, append the prediction, repeat. -/
def rawPreds (predict : List ℚ → ℚ) (lookback : ℕ) (seq : List ℚ) : ℕ → List ℚ
  | 0 => []
  | n + 1 =>
    let pr := predict (seq.drop (seq.length - lookback))
    pr :: rawPreds predict lookback (seq ++ [pr]) n

/-- `LSTMForecastor.forecast(periods)`: iterative prediction in scaled space,
one batch inverse transform, then bounds `point ± z * val_std * sqrt(i)`
rounded to 4 decimals.  `z` is the external
`scipy.stats.norm.ppf((1 + confidence_level) / 2)`. -/
noncomputable def forecast (predict : List ℚ → ℚ) (z : ℝ) (st : FitState)
    (periods : ℕ) : ForecastOut :=
  let seq0 := st.scaledPrices.drop (st.scaledPrices.length - st.lookback)
  let raw := rawPreds predict st.lookback seq0 periods
  let pts := raw.map fun v => v * st.scalerD + st.scalerMin
  { dates := (List.range periods).map fun i : ℕ => st.lastDate + st.freqDays * ((i : ℤ) + 1)
    point_forecast := pts.map fun v : ℚ => round4 (v : ℝ)
    lower_bound := (List.range periods).map fun i =>
      round4 ((pts.getD i 0 : ℝ) - forecastMargin z (valStd st) (i + 1))
    upper_bound := (List.range periods).map fun i =>
      round4 ((pts.getD i 0 : ℝ) + forecastMargin z (valStd st) (i + 1)) }

end LSTMForecastor

namespace ProphetForecaster

/-- Fitted state of `ProphetForecaster`: the training timestamps and the
inferred cadence (the fitted Prophet model itself is external). -/
structure FitState where
  histDates : List ℤ
  freqDays : ℤ
deriving DecidableEq, Repr

/-- `ProphetForecaster.fit`: validate (min_samples = 10) and hand the
(timestamp, price) pairs to the external Prophet library.  The
`_infer_freq_days` crash on a single-point index is modelled like in the
other fits (it is unreachable here: 10 validated samples give a nonempty
diff list). -/
def fit (p : PSeries) : Except FitError FitState :=
  match BaseForecastor.validate_prices p 10 with
  | .error e => .error e
  | .ok _ =>
    if BaseForecastor.diffsOf (seriesIdx p) = [] then .error .medianOfEmpty
    else
      .ok { histDates := seriesIdx p
            freqDays := BaseForecastor.infer_freq_days (seriesIdx p) }

/-- `ProphetForecaster.forecast(periods)`: build the future dataframe
(history dates plus `periods` new dates at the inferred cadence — the
behaviour of Prophet's `make_future_dataframe`), let the external library
predict `(yhat, yhat_lower, yhat_upper)` per row, keep the last `periods`
rows, and round to 4 decimals.  `libPredict` abstracts the Prophet
library's per-date prediction. -/
noncomputable def forecast (libPredict : ℤ → ℝ × ℝ × ℝ) (st : FitState)
    (periods : ℕ) : ForecastOut :=
  let lastD := st.histDates.getLast?.getD 0
  let future := st.histDates ++
    ((List.range periods).map fun i : ℕ => lastD + st.freqDays * ((i : ℤ) + 1))
  let rows := future.map fun d => (d, libPredict d)
  let tailRows := rows.drop (rows.length - periods)
  { dates := tailRows.map fun r => r.1
    point_forecast := tailRows.map fun r => round4 r.2.1
    lower_bound := tailRows.map fun r => round4 r.2.2.1
    upper_bound := tailRows.map fun r => round4 r.2.2.2 }

end ProphetForecaster

/-- The two sampling intervals of `INTERVAL_CONFIG` in schemas/forecast.py
("1wk" and "1mo"). -/
inductive BarInterval where
  | wk
  | mo
deriving DecidableEq, Repr

namespace IntervalConfig

/-- `INTERVAL_CONFIG[interval]["min_samples"]`. -/
def min_samples : BarInterval → ℕ
  | .wk => 52
  | .mo => 24

/-- `INTERVAL_CONFIG[interval]["label_singular"]`. -/
def label_singular : BarInterval → String
  | .wk => "week"
  | .mo => "month"

/-- `INTERVAL_CONFIG[interval]["label_plural"]`. -/
def label_plural : BarInterval → String
  | .wk => "weeks"
  | .mo => "months"

end IntervalConfig

/-- Format a nonnegative number of tenths as a one-decimal string: `fmt1Of d`
is the Python f-string `:.1f` rendering of `d / 10` (the caller rounds the
value to tenths with `rheDiv` first, matching `:.1f` rounding). -/
def fmt1Of (d : ℤ) : String :=
  toString (d / 10) ++ "." ++ toString (d % 10)

/-- `_horizon_label(periods, interval)` from
app/api/v1/endpoints/forecast.py.  For weekly intervals the approximate
month count is `round(periods / 4.33)`, embedded as the exact half-even
rounding of `100 * periods / 433` (the double 4.33 differs from 433/100 by
far less than any rounding boundary for periods in 1..52, and no exact tie
occurs).  `years:.1f` is the one-decimal rendering of `years` rounded to
tenths half-even, and the float comparison `years >= 2` is the exact
`m >= 24` (resp. `periods >= 24`) since `years = m / 12`. -/
def horizon_label (periods : ℕ) (interval : BarInterval) : String :=
  let unit := if periods = 1 then IntervalConfig.label_singular interval
              else IntervalConfig.label_plural interval
  let approx :=
    match interval with
    | .wk =>
      let m := rheDiv (100 * (periods : ℤ)) 433
      if 12 ≤ m then
        "~" ++ fmt1Of (rheDiv (10 * m) 12) ++ " year" ++
          (if 24 ≤ m then "s" else "") ++ " ahead"
      else if 1 ≤ m then
        "~" ++ toString m ++ " month" ++ (if m ≠ 1 then "s" else "") ++ " ahead"
      else "~days ahead"
    | .mo =>
      if 12 ≤ periods then
        "~" ++ fmt1Of (rheDiv (10 * (periods : ℤ)) 12) ++ " year" ++
          (if 24 ≤ periods then "s" else "") ++ " ahead"
      else
        "~" ++ toString periods ++ " month" ++ (if periods ≠ 1 then "s" else "") ++ " ahead"
  toString periods ++ " " ++ unit ++ " (" ++ approx ++ ")"

/-- Boolean substring test on the underlying character lists (used to state
the "label contains ..." facts decidably). -/
def strContainsB (needle hay : String) : Bool :=
  (List.range (hay.toList.length + 1)).any fun i =>
    needle.toList.isPrefixOf (hay.toList.drop i)

/-- Boolean prefix test on the underlying character lists. -/
def strStartsWithB (pre s : String) : Bool :=
  pre.toList.isPrefixOf s.toList

/-- Errors of the HTTP forecast path, keyed by what the endpoint raises.
`insufficientData` is the HTTP 422 of `_validate_interval_minimums`, carrying
the interval minimum and the actual row count. -/
inductive ApiError where
  | insufficientData (minRows actual : ℕ)
  | modelFailure
deriving DecidableEq, Repr

/-- `_validate_interval_minimums(series, interval, symbol)`: raise
`insufficientData` exactly when the series has fewer rows than the
interval's minimum. -/
def validate_interval_minimums (seriesLen : ℕ) (interval : BarInterval) :
    Except ApiError Unit :=
  if seriesLen < IntervalConfig.min_samples interval then
    .error (.insufficientData (IntervalConfig.min_samples interval) seriesLen)
  else .ok ()

/-- The `base_forecast` endpoint after the prices have been fetched:
`_validate_interval_minimums` runs first, and only on success is the model
runner (`_run_base` dispatched to the executor, which constructs and fits
the model) invoked.  The `lstm_forecast` and `prophet_forecast` endpoints
have the identical shape.  The runner is a parameter so that independence of
the validation outcome from the model can be stated. -/
def base_forecast {α : Type} (run : PSeries → Except ApiError α)
    (prices : PSeries) (interval : BarInterval) : Except ApiError α :=
  match validate_interval_minimums prices.rows.length interval with
  | .error e => .error e
  | .ok _ => run prices

/-- One asset row of the `assets` table.  `currency` is `none` when the
inserting code supplied no currency (the silent coordinator variant);
`lastUpdated` is `none` until a sync stamps it. -/
structure Asset where
  id : ℕ
  symbol : String
  assetType : String
  name : String
  currency : Option String
  lastUpdated : Option ℤ
deriving DecidableEq, Repr

/-- One row of the `historical_prices` table. -/
structure PriceRow where
  assetId : ℕ
  timestamp : ℤ
  openPrice : ℚ
  highPrice : ℚ
  lowPrice : ℚ
  closePrice : ℚ
  volume : ℤ
deriving DecidableEq, Repr

/-- The persistent store (Supabase).  `assetsAvailable` models whether
queries/writes on the `assets` table succeed; `pricesAvailable` the same for
the `historical_prices` upsert (and the subsequent `last_updated` stamp,
which lives in the same try block).  `nextId` supplies fresh asset ids. -/
structure Store where
  assetsAvailable : Bool
  pricesAvailable : Bool
  assets : List Asset
  nextId : ℕ
  prices : List PriceRow
deriving DecidableEq, Repr

/-- One raw history row from the upstream provider (yfinance).  `volume` is
`none` when absent upstream (defaulted to 0 by the transform). -/
structure HistRow where
  timestamp : ℤ
  openPrice : ℚ
  highPrice : ℚ
  lowPrice : ℚ
  closePrice : ℚ
  volume : Option ℤ
deriving DecidableEq, Repr

/-- Failures of `DataCoordinator.sync_asset` in coordinator.py:
`notFound` is the ValueError for an empty upstream history (unknown symbol),
`storeUnavailable` the RuntimeError when the asset row cannot be
resolved/created, `upsertFailed` the re-raised exception of a failed
upsert. -/
inductive SyncError where
  | notFound
  | storeUnavailable
  | upsertFailed
deriving DecidableEq, Repr

/-- The transform of step 3 of `sync_asset`: one raw provider row to one
`historical_prices` record, defaulting a missing volume to 0. -/
def toPriceRow (assetId : ℕ) (h : HistRow) : PriceRow :=
  { assetId := assetId
    timestamp := h.timestamp
    openPrice := h.openPrice
    highPrice := h.highPrice
    lowPrice := h.lowPrice
    closePrice := h.closePrice
    volume := h.volume.getD 0 }

/-- Key equality for the upsert's `on_conflict="asset_id,timestamp"`. -/
def sameKey (r p : PriceRow) : Bool :=
  p.assetId == r.assetId && p.timestamp == r.timestamp

/-- Upsert of a single record: overwrite rows with the same
(asset_id, timestamp) key in place, append otherwise. -/
def upsertOne (table : List PriceRow) (r : PriceRow) : List PriceRow :=
  if table.any (sameKey r) then table.map fun p => if sameKey r p then r else p
  else table ++ [r]

/-- Upsert of a record batch (the single Supabase upsert call). -/
def upsertAll (table : List PriceRow) (records : List PriceRow) : List PriceRow :=
  records.foldl upsertOne table

/-- Stamp `assets.last_updated` for the given asset id. -/
def stampAsset (st : Store) (assetId : ℕ) (now : ℤ) : Store :=
  { st with assets := st.assets.map fun a =>
      if a.id = assetId then { a with lastUpdated := some now } else a }

/-- Number of cached price rows for one asset. -/
def assetRowCount (st : Store) (assetId : ℕ) : ℕ :=
  (st.prices.filter fun p => p.assetId == assetId).length

namespace Coordinator

/-- `DataCoordinator._get_or_create_asset` of coordinator.py: look the
symbol up, insert a new row (name defaulted to the symbol, currency "USD")
when absent, and wrap any store failure in a RuntimeError
(`storeUnavailable`). -/
def get_or_create_asset (st : Store) (symbol assetType : String) :
    Store × Except SyncError ℕ :=
  if st.assetsAvailable = false then (st, .error .storeUnavailable)
  else
    match st.assets.find? (fun a => a.symbol == symbol) with
    | some a => (st, .ok a.id)
    | none =>
      let newAsset : Asset :=
        { id := st.nextId, symbol := symbol, assetType := assetType
          name := symbol, currency := some "USD", lastUpdated := none }
      ({ st with assets := st.assets ++ [newAsset], nextId := st.nextId + 1 },
       .ok st.nextId)

/-- `DataCoordinator.sync_asset` of coordinator.py (the raising variant):
resolve or create the asset, fetch the full history (`history` is the
provider's response), fail with `notFound` on an empty history, transform,
upsert keyed on (asset_id, timestamp), stamp `last_updated`, and return the
number of rows upserted.  The store is returned alongside the outcome
because failed calls still keep their earlier side effects. -/
def sync_asset (st : Store) (symbol assetType : String) (history : List HistRow)
    (now : ℤ) : Store × Except SyncError ℕ :=
  match get_or_create_asset st symbol assetType with
  | (st1, .error e) => (st1, .error e)
  | (st1, .ok assetId) =>
    if history.isEmpty then (st1, .error .notFound)
    else
      let records := history.map (toPriceRow assetId)
      if st1.pricesAvailable = false then (st1, .error .upsertFailed)
      else
        let st2 := { st1 with prices := upsertAll st1.prices records }
        (stampAsset st2 assetId now, .ok records.length)

end Coordinator

namespace DataCoordinator

/-- `DataCoordinator._get_or_create_asset` of data_coordinator.py (the
silent variant): any store failure is logged and swallowed, returning
`none`; the inserted row carries no currency. -/
def get_or_create_asset (st : Store) (symbol assetType : String) :
    Store × Option ℕ :=
  if st.assetsAvailable = false then (st, none)
  else
    match st.assets.find? (fun a => a.symbol == symbol) with
    | some a => (st, some a.id)
    | none =>
      let newAsset : Asset :=
        { id := st.nextId, symbol := symbol, assetType := assetType
          name := symbol, currency := none, lastUpdated := none }
      ({ st with assets := st.assets ++ [newAsset], nextId := st.nextId + 1 },
       some st.nextId)

/-- `DataCoordinator.sync_asset` of data_coordinator.py (the silent
variant): every failure — unresolvable asset, empty history, failed
upsert — is logged and the function simply returns; the successful path
also returns nothing.  The second component is the function's return value,
which is always `none`. -/
def sync_asset (st : Store) (symbol assetType : String) (history : List HistRow)
    (now : ℤ) : Store × Option ℕ :=
  match get_or_create_asset st symbol assetType with
  | (st1, none) => (st1, none)
  | (st1, some assetId) =>
    if history.isEmpty then (st1, none)
    else
      let records := history.map (toPriceRow assetId)
      if st1.pricesAvailable = false then (st1, none)
      else
        let st2 := { st1 with prices := upsertAll st1.prices records }
        (stampAsset st2 assetId now, none)

end DataCoordinator

/-- The shape invariant of one forecast result: all four parallel lists have
one entry per requested period and the bounds sandwich the point forecast. -/
def boundsOk (f : ForecastOut) (periods : ℕ) : Prop :=
  f.dates.length = periods ∧ f.point_forecast.length = periods ∧
  f.lower_bound.length = periods ∧ f.upper_bound.length = periods ∧
  ∀ i, i < periods →
    f.lower_bound.getD i 0 ≤ f.point_forecast.getD i 0 ∧
    f.point_forecast.getD i 0 ≤ f.upper_bound.getD i 0

/-- Confidence-interval width at forecast step index `i` (0-based). -/
def widthAt (f : ForecastOut) (i : ℕ) : ℝ :=
  f.upper_bound.getD i 0 - f.lower_bound.getD i 0

/-- Whether a timestamp index is strictly increasing (all consecutive
differences positive). -/
def strictlyIncreasingB (l : List ℤ) : Bool :=
  (BaseForecastor.diffsOf l).all (fun d => 0 < d)

/-! ### Concrete fixtures used by witnesses and counterexamples -/

/-- A three-point weekly series with constant price 1. -/
def wSeries3 : PSeries :=
  { isDatetimeIndex := true, rows := [(0, some 1), (7, some 1), (14, some 1)] }

/-- The state `SimpleForecaster.fit 1 wSeries3` produces. -/
def wSimpleSt : SimpleForecaster.FitState :=
  { span := 1, lastEma := 1, resVar := 0, freqDays := 7, lastDate := 14 }

/-- A concrete trained-network prediction function (the network is external;
its outputs are arbitrary floats as far as the repository code is
concerned). -/
def cePredict : List ℚ → ℚ :=
  fun w => if w = [0, 1/2] then 1/12 else 0

/-- A three-point weekly series with a 0.0003 price range. -/
def ceSeries : PSeries :=
  { isDatetimeIndex := true
    rows := [(0, some (3/10000)), (7, some 0), (14, some (3/20000))] }

/-- The state `LSTMForecastor.fit cePredict 2 0 ceSeries` produces
(validation partition empty, so the 5%-of-range fallback std applies). -/
def ceState : LSTMForecastor.FitState :=
  { lookback := 2, scalerMin := 0, scalerD := 3/10000
    scaledPrices := [1, 0, 1/2], useFallback := true, valResVar := 0
    fallbackStd := 3/200000, freqDays := 7, lastDate := 14 }

/-- A ten-point weekly series with constant price 1. -/
def prSeries10 : PSeries :=
  { isDatetimeIndex := true
    rows := (List.range 10).map fun i => ((7 * (i : ℤ), some (1 : ℚ))) }

/-- The state `ProphetForecaster.fit prSeries10` produces. -/
def prState : ProphetForecaster.FitState :=
  { histDates := [0, 7, 14, 21, 28, 35, 42, 49, 56, 63], freqDays := 7 }

/-- A concrete Prophet-library prediction: point 1, native band [0, 2]. -/
noncomputable def prLibPredict : ℤ → ℝ × ℝ × ℝ :=
  fun _ => (1, 0, 2)

/-- A series whose timestamps are not strictly increasing (10 is followed
by 5) but which is datetime-indexed, NaN-free and long enough. -/
def badOrderSeries : PSeries :=
  { isDatetimeIndex := true
    rows := [(0, some 1), (10, some 2), (5, some 3), (20, some 4), (40, some 5)] }

/-- An empty, fully available store. -/
def emptyStore : Store :=
  { assetsAvailable := true, pricesAvailable := true, assets := [], nextId := 0, prices := [] }

/-- A store whose `assets` table operations fail. -/
def downAssetsStore : Store :=
  { assetsAvailable := false, pricesAvailable := true, assets := [], nextId := 0, prices := [] }

/-- A store whose `historical_prices` upsert fails. -/
def downPricesStore : Store :=
  { assetsAvailable := true, pricesAvailable := false, assets := [], nextId := 0, prices := [] }

/-- A one-row upstream history. -/
def histOne : List HistRow :=
  [{ timestamp := 0, openPrice := 1, highPrice := 2, lowPrice := 1, closePrice := 2, volume := some 5 }]

/-! ### Helper lemmas: half-even rounding -/

theorem rhe_cases (x : ℝ) : rhe x = ⌊x⌋ ∨ rhe x = ⌊x⌋ + 1 := by
  unfold rhe
  split_ifs <;> simp

theorem floor_le_rhe (x : ℝ) : ⌊x⌋ ≤ rhe x := by
  rcases rhe_cases x with h | h <;> omega

theorem rhe_le_floor_add_one (x : ℝ) : rhe x ≤ ⌊x⌋ + 1 := by
  rcases rhe_cases x with h | h <;> omega

theorem rhe_le_half (x : ℝ) : (rhe x : ℝ) ≤ x + 1/2 := by
  have hfl := Int.floor_le x
  unfold rhe
  split_ifs with h1 h2 h3 <;> push_cast <;> linarith

theorem half_le_rhe (x : ℝ) : x - 1/2 ≤ (rhe x : ℝ) := by
  have hfl := Int.lt_floor_add_one x
  unfold rhe
  split_ifs with h1 h2 h3 <;> push_cast <;> linarith

theorem rhe_mono {x y : ℝ} (h : x ≤ y) : rhe x ≤ rhe y := by
  have hf : ⌊x⌋ ≤ ⌊y⌋ := Int.floor_le_floor h
  rcases eq_or_lt_of_le hf with heq | hlt
  · unfold rhe
    rw [← heq]
    split_ifs <;> first | omega | (exfalso; linarith)
  · have h1 := rhe_le_floor_add_one x
    have h2 := floor_le_rhe y
    omega

theorem rhe_eq_low {x : ℝ} (n : ℤ) (h1 : (n : ℝ) ≤ x) (h2 : x < n + 1/2) :
    rhe x = n := by
  have hf : ⌊x⌋ = n := Int.floor_eq_iff.mpr ⟨h1, by linarith⟩
  unfold rhe
  rw [hf, if_pos (by rw [hf] at *; linarith)]

theorem rhe_eq_high {x : ℝ} (n : ℤ) (h1 : (n : ℝ) + 1/2 < x) (h2 : x < n + 1) :
    rhe x = n + 1 := by
  have hf : ⌊x⌋ = n := Int.floor_eq_iff.mpr ⟨by linarith, by linarith⟩
  unfold rhe
  rw [hf, if_neg (by rw [hf] at *; linarith), if_pos (by rw [hf] at *; linarith)]

theorem round4_mono {x y : ℝ} (h : x ≤ y) : round4 x ≤ round4 y := by
  unfold round4
  have := rhe_mono (mul_le_mul_of_nonneg_right h (by norm_num : (0:ℝ) ≤ 10000))
  have : ((rhe (x * 10000) : ℤ) : ℝ) ≤ ((rhe (y * 10000) : ℤ) : ℝ) := by exact_mod_cast this
  linarith

theorem round4_le (x : ℝ) : round4 x ≤ x + 1/20000 := by
  unfold round4
  have := rhe_le_half (x * 10000)
  linarith

theorem le_round4 (x : ℝ) : x - 1/20000 ≤ round4 x := by
  unfold round4
  have := half_le_rhe (x * 10000)
  linarith

/-! ### Helper lemmas: list access -/

theorem getD_map_range {α : Type} (f : ℕ → α) {i n : ℕ} (h : i < n) (d : α) :
    (((List.range n).map f).getD i d) = f i := by
  rw [List.getD_eq_getElem?_getD, List.getElem?_map, List.getElem?_range h]
  rfl

theorem getD_map_of_lt {α β : Type} (f : α → β) {l : List α} {i : ℕ}
    (h : i < l.length) (d : β) (d0 : α) :
    (l.map f).getD i d = f (l.getD i d0) := by
  rw [List.getD_eq_getElem?_getD, List.getElem?_map,
      List.getElem?_eq_getElem h, List.getD_eq_getElem?_getD,
      List.getElem?_eq_getElem h]
  rfl

theorem rawPreds_length (predict : List ℚ → ℚ) (lookback : ℕ) :
    ∀ (n : ℕ) (seq : List ℚ),
      (LSTMForecastor.rawPreds predict lookback seq n).length = n := by
  intro n
  induction n with
  | zero => intro seq; rfl
  | succ k ih =>
    intro seq
    simp [LSTMForecastor.rawPreds, ih]

theorem getD_eq_getElem {α : Type} (l : List α) (d : α) {i : ℕ} (h : i < l.length) :
    l.getD i d = l[i] := by
  rw [List.getD_eq_getElem?_getD, List.getElem?_eq_getElem h]
  rfl

/-! ### Helper lemmas: fitted states -/

theorem SimpleForecaster.fit_ok_state {span : ℕ} {p : PSeries}
    {st : SimpleForecaster.FitState} (h : SimpleForecaster.fit span p = .ok st) :
    st = { span := span
           lastEma := (SimpleForecaster.emaList (SimpleForecaster.alphaOfSpan span)
             (seriesVals p)).getLast?.getD 0
           resVar := SimpleForecaster.sampleVar (List.zipWith (fun x e => x - e)
             (seriesVals p)
             (SimpleForecaster.emaList (SimpleForecaster.alphaOfSpan span) (seriesVals p)))
           freqDays := BaseForecastor.infer_freq_days (seriesIdx p)
           lastDate := (seriesIdx p).getLast?.getD 0 } := by
  unfold SimpleForecaster.fit at h
  split at h
  · exact absurd h (by simp)
  · split at h
    · exact absurd h (by simp)
    · split at h
      · exact absurd h (by simp)
      · injection h with h2
        exact h2.symm

theorem foldl_min_le (x : ℚ) (xs : List ℚ) : xs.foldl min x ≤ x := by
  induction xs generalizing x with
  | nil => exact le_refl x
  | cons y ys ih =>
    calc (y :: ys).foldl min x = ys.foldl min (min x y) := rfl
    _ ≤ min x y := ih (min x y)
    _ ≤ x := min_le_left x y

theorem le_foldl_max (x : ℚ) (xs : List ℚ) : x ≤ xs.foldl max x := by
  induction xs generalizing x with
  | nil => exact le_refl x
  | cons y ys ih =>
    calc x ≤ max x y := le_max_left x y
    _ ≤ ys.foldl max (max x y) := ih (max x y)
    _ = (y :: ys).foldl max x := rfl

theorem minQ_le_maxQ (l : List ℚ) : LSTMForecastor.minQ l ≤ LSTMForecastor.maxQ l := by
  cases l with
  | nil => exact le_refl 0
  | cons x xs =>
    calc LSTMForecastor.minQ (x :: xs) = xs.foldl min x := rfl
    _ ≤ x := foldl_min_le x xs
    _ ≤ xs.foldl max x := le_foldl_max x xs
    _ = LSTMForecastor.maxQ (x :: xs) := rfl

theorem LSTMForecastor.fit_ok_fallback {predict : List ℚ → ℚ} {lb : ℕ} {ts : ℚ}
    {p : PSeries} {st : LSTMForecastor.FitState}
    (h : LSTMForecastor.fit predict lb ts p = .ok st) :
    st.fallbackStd =
      (LSTMForecastor.maxQ (seriesVals p) - LSTMForecastor.minQ (seriesVals p)) * (1/20) := by
  unfold LSTMForecastor.fit at h
  split at h
  · exact absurd h (by simp)
  · split at h
    · exact absurd h (by simp)
    · dsimp only at h
      split at h
      · exact absurd h (by simp)
      · injection h with h2
        subst h2
        rfl

theorem LSTMForecastor.valStd_nonneg {predict : List ℚ → ℚ} {lb : ℕ} {ts : ℚ}
    {p : PSeries} {st : LSTMForecastor.FitState}
    (h : LSTMForecastor.fit predict lb ts p = .ok st) :
    0 ≤ LSTMForecastor.valStd st := by
  unfold LSTMForecastor.valStd
  split
  · have h1 : (0 : ℚ) ≤ st.fallbackStd := by
      rw [LSTMForecastor.fit_ok_fallback h]
      have := minQ_le_maxQ (seriesVals p)
      nlinarith
    exact_mod_cast h1
  · exact Real.sqrt_nonneg _

theorem margin_nonneg {z std : ℝ} (hz : 0 ≤ z) (hs : 0 ≤ std) (step : ℕ) :
    0 ≤ forecastMargin z std step :=
  mul_nonneg (mul_nonneg hz hs) (Real.sqrt_nonneg _)

theorem residualStd_nonneg (st : SimpleForecaster.FitState) :
    0 ≤ SimpleForecaster.residualStd st :=
  Real.sqrt_nonneg _

/-- C1: for every fitted model variant (EWM baseline, LSTM sequence, Prophet
decomposition), every nonnegative critical value z (norm.ppf of
(1+confidence)/2 is nonnegative for every confidence level in [0.5, 0.99])
and every requested number of periods, the forecast's four lists each have
length `periods` and satisfy lower[i] <= point[i] <= upper[i] at every
index.  For the Prophet variant the repository passes the external
library's native band through, so the sandwich holds under the hypothesis
that the library's band contains its own point estimate. -/
theorem c1_forecast_bounds_and_lengths :
    (∀ (span : ℕ) (p : PSeries) (st : SimpleForecaster.FitState) (z : ℝ) (periods : ℕ),
        SimpleForecaster.fit span p = .ok st → 0 ≤ z →
        boundsOk (SimpleForecaster.forecast z st periods) periods) ∧
    (∀ (predict : List ℚ → ℚ) (lb : ℕ) (ts : ℚ) (p : PSeries)
        (st : LSTMForecastor.FitState) (z : ℝ) (periods : ℕ),
        LSTMForecastor.fit predict lb ts p = .ok st → 0 ≤ z →
        boundsOk (LSTMForecastor.forecast predict z st periods) periods) ∧
    (∀ (libPredict : ℤ → ℝ × ℝ × ℝ) (p : PSeries) (st : ProphetForecaster.FitState)
        (periods : ℕ),
        ProphetForecaster.fit p = .ok st →
        (∀ d, (libPredict d).2.1 ≤ (libPredict d).1 ∧ (libPredict d).1 ≤ (libPredict d).2.2) →
        boundsOk (ProphetForecaster.forecast libPredict st periods) periods) := by
  refine ⟨?_, ?_, ?_⟩
  · intro span p st z periods _hfit hz
    unfold boundsOk SimpleForecaster.forecast
    dsimp only
    refine ⟨by simp, by simp, by simp, by simp, ?_⟩
    intro i hi
    rw [getD_map_range _ hi, getD_map_range _ hi, getD_map_range _ hi]
    have hm := margin_nonneg hz (residualStd_nonneg st) (i + 1)
    exact ⟨round4_mono (by linarith), round4_mono (by linarith)⟩
  · intro predict lb ts p st z periods hfit hz
    have hs := LSTMForecastor.valStd_nonneg hfit
    unfold boundsOk LSTMForecastor.forecast
    dsimp only
    have hraw := rawPreds_length predict st.lookback periods
      (st.scaledPrices.drop (st.scaledPrices.length - st.lookback))
    refine ⟨by simp, by simp [hraw], by simp, by simp, ?_⟩
    intro i hi
    have hpts : i < ((LSTMForecastor.rawPreds predict st.lookback
        (st.scaledPrices.drop (st.scaledPrices.length - st.lookback)) periods).map
          fun v => v * st.scalerD + st.scalerMin).length := by
      simp [hraw, hi]
    rw [getD_map_range _ hi, getD_map_range _ hi,
        getD_map_of_lt (fun v : ℚ => round4 (v : ℝ)) hpts 0 0]
    have hm := margin_nonneg hz hs (i + 1)
    exact ⟨round4_mono (by linarith), round4_mono (by linarith)⟩
  · intro libPredict p st periods _hfit hband
    unfold boundsOk ProphetForecaster.forecast
    dsimp only
    have hrows : ((st.histDates ++ ((List.range periods).map
        fun i : ℕ => st.histDates.getLast?.getD 0 + st.freqDays * ((i : ℤ) + 1))).map
          fun d => (d, libPredict d)).length = st.histDates.length + periods := by
      simp
    have htail : (((st.histDates ++ ((List.range periods).map
        fun i : ℕ => st.histDates.getLast?.getD 0 + st.freqDays * ((i : ℤ) + 1))).map
          fun d => (d, libPredict d)).drop
        (((st.histDates ++ ((List.range periods).map
        fun i : ℕ => st.histDates.getLast?.getD 0 + st.freqDays * ((i : ℤ) + 1))).map
          fun d => (d, libPredict d)).length - periods)).length = periods := by
      rw [List.length_drop, hrows]
      omega
    refine ⟨by simp [htail], by simp [htail], by simp [htail], by simp [htail], ?_⟩
    intro i hi
    have hi' : i < (((st.histDates ++ ((List.range periods).map
        fun i : ℕ => st.histDates.getLast?.getD 0 + st.freqDays * ((i : ℤ) + 1))).map
          fun d => (d, libPredict d)).drop
        (((st.histDates ++ ((List.range periods).map
        fun i : ℕ => st.histDates.getLast?.getD 0 + st.freqDays * ((i : ℤ) + 1))).map
          fun d => (d, libPredict d)).length - periods)).length := by
      rw [htail]; exact hi
    rw [getD_map_of_lt (fun r : ℤ × ℝ × ℝ × ℝ => round4 r.2.1) hi' 0 (0, 0, 0, 0),
        getD_map_of_lt (fun r : ℤ × ℝ × ℝ × ℝ => round4 r.2.2.1) hi' 0 (0, 0, 0, 0),
        getD_map_of_lt (fun r : ℤ × ℝ × ℝ × ℝ => round4 r.2.2.2) hi' 0 (0, 0, 0, 0)]
    have hmem := List.drop_subset _ _
      ((getD_eq_getElem _ ((0 : ℤ), ((0 : ℝ), (0 : ℝ), (0 : ℝ))) hi') ▸
        List.getElem_mem hi')
    obtain ⟨d, _, hgd⟩ := List.mem_map.mp hmem
    rw [← hgd]
    exact ⟨round4_mono (hband d).1, round4_mono (hband d).2⟩

/-- The fixture state wSimpleSt really is what `fit` computes. -/
theorem wSimpleSt_fit : SimpleForecaster.fit 1 wSeries3 = Except.ok wSimpleSt := by
  simp [SimpleForecaster.fit, BaseForecastor.validate_prices, wSeries3, seriesVals, seriesIdx,
    SimpleForecaster.emaList, SimpleForecaster.emaFrom, SimpleForecaster.alphaOfSpan,
    SimpleForecaster.sampleVar, SimpleForecaster.meanQ, BaseForecastor.infer_freq_days,
    BaseForecastor.medianQ, BaseForecastor.diffsOf, BaseForecastor.sortInts,
    BaseForecastor.insertSorted, intTrunc, wSimpleSt]
  norm_num

/-- The fixture state ceState really is what the LSTM `fit` computes. -/
theorem ceState_fit : LSTMForecastor.fit cePredict 2 0 ceSeries = Except.ok ceState := by
  simp [LSTMForecastor.fit, BaseForecastor.validate_prices, ceSeries, seriesVals, seriesIdx,
    LSTMForecastor.minQ, LSTMForecastor.maxQ, LSTMForecastor.scaleDenom, LSTMForecastor.seqX,
    LSTMForecastor.seqY, LSTMForecastor.popVar, SimpleForecaster.meanQ, intTrunc,
    BaseForecastor.infer_freq_days, BaseForecastor.medianQ, BaseForecastor.diffsOf,
    BaseForecastor.sortInts, BaseForecastor.insertSorted, cePredict, ceState,
    List.range_zero, List.range_succ]
  norm_num

/-- Witness for C1 at concrete fitted models and periods = 4. -/
theorem c1_forecast_bounds_and_lengths_witness :
    boundsOk (SimpleForecaster.forecast 2 wSimpleSt 4) 4 ∧
    boundsOk (LSTMForecastor.forecast cePredict 2 ceState 4) 4 ∧
    boundsOk (ProphetForecaster.forecast prLibPredict prState 4) 4 :=
  ⟨c1_forecast_bounds_and_lengths.1 1 wSeries3 wSimpleSt 2 4 wSimpleSt_fit (by norm_num),
   c1_forecast_bounds_and_lengths.2.1 cePredict 2 0 ceSeries ceState 2 4 ceState_fit (by norm_num),
   c1_forecast_bounds_and_lengths.2.2 prLibPredict prSeries10 prState 4 (by rfl)
     (fun d => by unfold prLibPredict; norm_num)⟩

/-- C8: shape of the horizon label for every periods in 1..52 and both
intervals.  The label starts with "periods unit" (unit singular exactly for
periods = 1); for weekly intervals the parenthetical is driven by
m = round(periods/4.33): "year" wording for m >= 12, "~m month(s)" for m in
1..11, "~days ahead" below 1; for monthly intervals "year" wording for
periods >= 12 and whole months below.  Includes the four spot checks of the
spec. -/
theorem c8_horizon_label :
    (∀ p : ℕ, p < 53 → 1 ≤ p →
      strStartsWithB (toString p ++ " " ++ (if p = 1 then "week" else "weeks"))
        (horizon_label p .wk) = true) ∧
    (∀ p : ℕ, p < 53 → 1 ≤ p →
      strStartsWithB (toString p ++ " " ++ (if p = 1 then "month" else "months"))
        (horizon_label p .mo) = true) ∧
    (∀ p : ℕ, p < 53 → 12 ≤ rheDiv (100 * (p : ℤ)) 433 →
      strContainsB "year" (horizon_label p .wk) = true) ∧
    (∀ p : ℕ, p < 53 → 1 ≤ rheDiv (100 * (p : ℤ)) 433 → rheDiv (100 * (p : ℤ)) 433 ≤ 11 →
      strContainsB ("~" ++ toString (rheDiv (100 * (p : ℤ)) 433) ++ " month")
        (horizon_label p .wk) = true) ∧
    (∀ p : ℕ, p < 53 → rheDiv (100 * (p : ℤ)) 433 < 1 →
      strContainsB "~days ahead" (horizon_label p .wk) = true) ∧
    (∀ p : ℕ, p < 53 → 12 ≤ p → strContainsB "year" (horizon_label p .mo) = true) ∧
    (∀ p : ℕ, p < 53 → 1 ≤ p → p < 12 →
      strContainsB ("~" ++ toString p ++ " month") (horizon_label p .mo) = true) ∧
    strContainsB "4 weeks" (horizon_label 4 .wk) = true ∧
    strContainsB "month" (horizon_label 4 .wk) = true ∧
    strContainsB "year" (horizon_label 52 .wk) = true ∧
    strContainsB "1 month" (horizon_label 1 .mo) = true ∧
    horizon_label 1 .mo = "1 month (~1 month ahead)" ∧
    strContainsB "year" (horizon_label 12 .mo) = true := by
  refine ⟨?_, ?_, ?_, ?_, ?_, ?_, ?_, ?_, ?_, ?_, ?_, ?_, ?_⟩ <;> decide

/-- Witness for C8 at periods = 4 (weekly) and periods = 12 (monthly). -/
theorem c8_horizon_label_witness :
    strStartsWithB (toString 4 ++ " " ++ (if (4 : ℕ) = 1 then "week" else "weeks"))
      (horizon_label 4 .wk) = true ∧
    strContainsB "year" (horizon_label 12 .mo) = true :=
  ⟨c8_horizon_label.1 4 (by norm_num) (by norm_num),
   c8_horizon_label.2.2.2.2.2.1 12 (by norm_num) (by norm_num)⟩

/-- C2: `_validate_interval_minimums` fails with `insufficientData`
(carrying the minimum and the actual count) exactly when the series length
is below the interval's minimum (52 for weekly, 24 for monthly), with the
boundary cases 51/52 and 23/24; and on the request path the check runs
before the model runner, so a too-short series yields the validation error
no matter what model runner would have executed. -/
theorem c2_interval_minimum_gate :
    (∀ (len : ℕ) (interval : BarInterval),
      (len < IntervalConfig.min_samples interval ↔
        validate_interval_minimums len interval =
          .error (.insufficientData (IntervalConfig.min_samples interval) len)) ∧
      (IntervalConfig.min_samples interval ≤ len ↔
        validate_interval_minimums len interval = .ok ())) ∧
    (validate_interval_minimums 51 .wk = .error (.insufficientData 52 51) ∧
     validate_interval_minimums 52 .wk = .ok () ∧
     validate_interval_minimums 23 .mo = .error (.insufficientData 24 23) ∧
     validate_interval_minimums 24 .mo = .ok ()) ∧
    (∀ (α : Type) (run : PSeries → Except ApiError α) (prices : PSeries)
        (interval : BarInterval),
      prices.rows.length < IntervalConfig.min_samples interval →
      base_forecast run prices interval =
        .error (.insufficientData (IntervalConfig.min_samples interval)
          prices.rows.length)) := by
  refine ⟨?_, ⟨rfl, rfl, rfl, rfl⟩, ?_⟩
  · intro len interval
    by_cases h : len < IntervalConfig.min_samples interval
    · constructor
      · simp [validate_interval_minimums, h]
      · constructor
        · intro hle; omega
        · intro hok
          simp [validate_interval_minimums, h] at hok
    · constructor
      · constructor
        · intro hlt; omega
        · intro herr
          simp [validate_interval_minimums, h] at herr
      · simp [validate_interval_minimums, h]
        omega
  · intro α run prices interval h
    simp [base_forecast, validate_interval_minimums, h]

/-- Witness for C2: a 51-row weekly request is rejected before the model
runner executes. -/
theorem c2_interval_minimum_gate_witness :
    base_forecast (fun _ => Except.ok 0)
      { isDatetimeIndex := true, rows := List.replicate 51 ((0 : ℤ), some (1 : ℚ)) } .wk =
      .error (.insufficientData 52 51) :=
  c2_interval_minimum_gate.2.2 ℕ (fun _ => Except.ok 0)
    { isDatetimeIndex := true, rows := List.replicate 51 ((0 : ℤ), some (1 : ℚ)) } .wk
    (by simp [IntervalConfig.min_samples])

/-! ### Helper lemmas: shared validation -/

theorem validate_prices_ok_iff (p : PSeries) (m : ℕ) :
    BaseForecastor.validate_prices p m = .ok () ↔
    (p.isDatetimeIndex = true ∧ m ≤ p.rows.length ∧
     p.rows.any (fun r => r.2.isNone) = false) := by
  constructor
  · intro h
    unfold BaseForecastor.validate_prices at h
    split_ifs at h with h1 h2 h3
    refine ⟨by simp only [Bool.not_eq_false] at h1; exact h1, by omega,
      Bool.eq_false_iff.mpr h3⟩
  · rintro ⟨ha, hb, hc⟩
    unfold BaseForecastor.validate_prices
    rw [if_neg (by simp [ha]), if_neg (by omega), if_neg (by simp [hc])]

theorem validate_prices_fails_iff (p : PSeries) (m : ℕ) :
    isOkE (BaseForecastor.validate_prices p m) = false ↔
    (p.isDatetimeIndex = false ∨ p.rows.length < m ∨
     p.rows.any (fun r => r.2.isNone) = true) := by
  unfold BaseForecastor.validate_prices
  split_ifs with h1 h2 h3 <;> simp_all [isOkE]

theorem seriesVals_length (p : PSeries)
    (h : p.rows.any (fun r => r.2.isNone) = false) :
    (seriesVals p).length = p.rows.length := by
  unfold seriesVals
  suffices hgen : ∀ l : List (ℤ × Option ℚ), l.any (fun r => r.2.isNone) = false →
      (l.filterMap (fun r => r.2)).length = l.length from hgen p.rows h
  intro l hl
  induction l with
  | nil => rfl
  | cons r t ih =>
    rw [List.any_cons] at hl
    rcases Bool.or_eq_false_iff.mp hl with ⟨h1, h2⟩
    cases hr : r.2 with
    | none => rw [hr] at h1; simp at h1
    | some v => simp [List.filterMap_cons, hr, ih h2]

theorem isOkE_eq_false {ε α : Type} (x : Except ε α) :
    isOkE x = false ↔ ∃ e, x = .error e := by
  cases x <;> simp [isOkE]

theorem SimpleForecaster.fit_error_of_validate_simple {span : ℕ} {p : PSeries}
    {e : FitError} (hv : BaseForecastor.validate_prices p span = .error e) :
    SimpleForecaster.fit span p = .error e := by
  unfold SimpleForecaster.fit
  rw [hv]

theorem ProphetForecaster.fit_error_of_validate_prophet {p : PSeries} {e : FitError}
    (hv : BaseForecastor.validate_prices p 10 = .error e) :
    ProphetForecaster.fit p = .error e := by
  unfold ProphetForecaster.fit
  rw [hv]

theorem LSTMForecastor.fit_error_of_validate_lstm {predict : List ℚ → ℚ} {lb : ℕ}
    {ts : ℚ} {p : PSeries} {e : FitError}
    (hv : BaseForecastor.validate_prices p (lb + 1) = .error e) :
    LSTMForecastor.fit predict lb ts p = .error e := by
  unfold LSTMForecastor.fit
  rw [hv]

theorem SimpleForecaster.fit_isOk_iff (span : ℕ) (p : PSeries) :
    isOkE (SimpleForecaster.fit span p) = true ↔
      (isOkE (BaseForecastor.validate_prices p span) = true ∧ 1 ≤ span ∧
       BaseForecastor.diffsOf (seriesIdx p) ≠ []) := by
  unfold SimpleForecaster.fit
  cases hv : BaseForecastor.validate_prices p span with
  | error e => simp [isOkE]
  | ok u =>
    dsimp only
    split_ifs with h1 h2
    · exact ⟨fun hh => absurd hh (by simp [isOkE]),
        fun ⟨_, hsp, _⟩ => absurd h1 (by omega)⟩
    · exact ⟨fun hh => absurd hh (by simp [isOkE]), fun ⟨_, _, hd⟩ => absurd h2 hd⟩
    · exact ⟨fun _ => ⟨rfl, by omega, h2⟩, fun _ => rfl⟩

/-- C6 (amended): every model variant's fit rejects, before any training
occurs, a series that is not datetime-indexed, is shorter than the
model-specific minimum (span for the baseline, lookback+1 for the sequence
model, 10 for the decomposition model), or contains missing values.
Strict timestamp ordering is NOT part of the check: an out-of-order series
is accepted (see the counterexample).  The last conjunct shows rejection
happens before any training: when the shared validation fails, the
sequence model's fit result is identical for any network and any split
fraction. -/
theorem c6_fit_validation_amended :
    (∀ (span : ℕ) (p : PSeries),
      (p.isDatetimeIndex = false ∨ p.rows.length < span ∨
       p.rows.any (fun r => r.2.isNone) = true) →
      isOkE (SimpleForecaster.fit span p) = false) ∧
    (∀ (predict : List ℚ → ℚ) (lb : ℕ) (ts : ℚ) (p : PSeries),
      (p.isDatetimeIndex = false ∨ p.rows.length < lb + 1 ∨
       p.rows.any (fun r => r.2.isNone) = true) →
      isOkE (LSTMForecastor.fit predict lb ts p) = false) ∧
    (∀ p : PSeries,
      (p.isDatetimeIndex = false ∨ p.rows.length < 10 ∨
       p.rows.any (fun r => r.2.isNone) = true) →
      isOkE (ProphetForecaster.fit p) = false) ∧
    (∀ (predict1 predict2 : List ℚ → ℚ) (lb : ℕ) (ts1 ts2 : ℚ) (p : PSeries)
        (e : FitError),
      BaseForecastor.validate_prices p (lb + 1) = .error e →
      LSTMForecastor.fit predict1 lb ts1 p = LSTMForecastor.fit predict2 lb ts2 p) := by
  refine ⟨?_, ?_, ?_, ?_⟩
  · intro span p h
    obtain ⟨e, hv⟩ := (isOkE_eq_false _).mp ((validate_prices_fails_iff p span).mpr h)
    rw [SimpleForecaster.fit_error_of_validate_simple hv]
    rfl
  · intro predict lb ts p h
    obtain ⟨e, hv⟩ :=
      (isOkE_eq_false _).mp ((validate_prices_fails_iff p (lb + 1)).mpr h)
    rw [LSTMForecastor.fit_error_of_validate_lstm hv]
    rfl
  · intro p h
    obtain ⟨e, hv⟩ := (isOkE_eq_false _).mp ((validate_prices_fails_iff p 10).mpr h)
    rw [ProphetForecaster.fit_error_of_validate_prophet hv]
    rfl
  · intro predict1 predict2 lb ts1 ts2 p e hv
    rw [LSTMForecastor.fit_error_of_validate_lstm hv,
        LSTMForecastor.fit_error_of_validate_lstm hv]

/-- Counterexample for C6 as stated: a series whose timestamps are not
strictly ordered (10 is followed by 5) passes validation and is fitted
successfully by the baseline model — fit does not reject unordered
series. -/
theorem c6_ordering_not_checked_counterexample :
    strictlyIncreasingB (seriesIdx badOrderSeries) = false ∧
    isOkE (SimpleForecaster.fit 2 badOrderSeries) = true := by
  refine ⟨by decide, ?_⟩
  exact (SimpleForecaster.fit_isOk_iff 2 badOrderSeries).mpr
    ⟨by decide, by norm_num, by decide⟩

/-- Witness for C6 (amended): a non-datetime-indexed series is rejected by
the sequence model's fit identically for two different networks and split
fractions. -/
theorem c6_fit_validation_amended_witness :
    LSTMForecastor.fit cePredict 2 0 { isDatetimeIndex := false, rows := [] } =
      LSTMForecastor.fit (fun _ => 0) 2 (1/2) { isDatetimeIndex := false, rows := [] } :=
  c6_fit_validation_amended.2.2.2 cePredict (fun _ => 0) 2 0 (1/2)
    { isDatetimeIndex := false, rows := [] } .typeErrorIndex (by rfl)

/-- C5: for a fitted baseline model, at every 0-based index i (1-indexed
step i+1) the point forecast is the rounded last EWM-smoothed value (hence
constant across steps), the bounds are the point value plus/minus
z * residual_std * sqrt(step) rounded to 4 decimals (z models the external
norm.ppf((1+confidence)/2), residual_std the sample std of price - ema),
and the date is the last training timestamp plus step * inferred-step-days.
The length hypothesis 2 <= rows marks where pandas' std of a single sample
would be NaN rather than a number. -/
theorem c5_baseline_forecast_values :
    ∀ (span : ℕ) (p : PSeries) (st : SimpleForecaster.FitState) (z : ℝ) (periods i : ℕ),
      SimpleForecaster.fit span p = .ok st →
      2 ≤ p.rows.length →
      i < periods →
      ((SimpleForecaster.forecast z st periods).point_forecast.getD i 0 =
        round4 (((SimpleForecaster.emaList (SimpleForecaster.alphaOfSpan span)
          (seriesVals p)).getLast?.getD 0 : ℚ) : ℝ)) ∧
      (∀ j, j < periods →
        (SimpleForecaster.forecast z st periods).point_forecast.getD i 0 =
        (SimpleForecaster.forecast z st periods).point_forecast.getD j 0) ∧
      ((SimpleForecaster.forecast z st periods).lower_bound.getD i 0 =
        round4 ((st.lastEma : ℝ) -
          z * SimpleForecaster.residualStd st * Real.sqrt ((i : ℝ) + 1))) ∧
      ((SimpleForecaster.forecast z st periods).upper_bound.getD i 0 =
        round4 ((st.lastEma : ℝ) +
          z * SimpleForecaster.residualStd st * Real.sqrt ((i : ℝ) + 1))) ∧
      (SimpleForecaster.residualStd st =
        Real.sqrt ((SimpleForecaster.sampleVar (List.zipWith (fun x e => x - e)
          (seriesVals p) (SimpleForecaster.emaList (SimpleForecaster.alphaOfSpan span)
            (seriesVals p))) : ℚ) : ℝ)) ∧
      ((SimpleForecaster.forecast z st periods).dates.getD i 0 =
        (seriesIdx p).getLast?.getD 0 +
          BaseForecastor.infer_freq_days (seriesIdx p) * ((i : ℤ) + 1)) := by
  intro span p st z periods i hfit _hlen hi
  have hstate := SimpleForecaster.fit_ok_state hfit
  subst hstate
  unfold SimpleForecaster.forecast SimpleForecaster.residualStd
  dsimp only
  have hcast : ((i + 1 : ℕ) : ℝ) = (i : ℝ) + 1 := by push_cast; ring
  refine ⟨getD_map_range _ hi _, ?_, ?_, ?_, rfl, getD_map_range _ hi _⟩
  · intro j hj
    rw [getD_map_range _ hi, getD_map_range _ hj]
  · rw [getD_map_range _ hi]
    unfold forecastMargin
    rw [hcast]
  · rw [getD_map_range _ hi]
    unfold forecastMargin
    rw [hcast]

/-- Witness for C5: point forecast at step 2 of a concrete fit equals the
rounded last EWM value. -/
theorem c5_baseline_forecast_values_witness :
    (SimpleForecaster.forecast 2 wSimpleSt 4).point_forecast.getD 1 0 =
      round4 (((SimpleForecaster.emaList (SimpleForecaster.alphaOfSpan 1)
        (seriesVals wSeries3)).getLast?.getD 0 : ℚ) : ℝ) :=
  (c5_baseline_forecast_values 1 wSeries3 wSimpleSt 2 4 1 wSimpleSt_fit
    (by norm_num [wSeries3]) (by norm_num)).1

/-! ### Helper lemmas: forecast list access and margins -/

theorem lstm_forecast_lower_getD (predict : List ℚ → ℚ) (z : ℝ)
    (st : LSTMForecastor.FitState) (periods i : ℕ) (hi : i < periods) :
    (LSTMForecastor.forecast predict z st periods).lower_bound.getD i 0 =
      round4 ((((LSTMForecastor.rawPreds predict st.lookback
        (st.scaledPrices.drop (st.scaledPrices.length - st.lookback)) periods).map
          (fun v => v * st.scalerD + st.scalerMin)).getD i 0 : ℝ) -
        forecastMargin z (LSTMForecastor.valStd st) (i + 1)) := by
  unfold LSTMForecastor.forecast
  dsimp only
  exact getD_map_range _ hi _

theorem lstm_forecast_upper_getD (predict : List ℚ → ℚ) (z : ℝ)
    (st : LSTMForecastor.FitState) (periods i : ℕ) (hi : i < periods) :
    (LSTMForecastor.forecast predict z st periods).upper_bound.getD i 0 =
      round4 ((((LSTMForecastor.rawPreds predict st.lookback
        (st.scaledPrices.drop (st.scaledPrices.length - st.lookback)) periods).map
          (fun v => v * st.scalerD + st.scalerMin)).getD i 0 : ℝ) +
        forecastMargin z (LSTMForecastor.valStd st) (i + 1)) := by
  unfold LSTMForecastor.forecast
  dsimp only
  exact getD_map_range _ hi _

theorem forecastMargin_mono {z s : ℝ} (hz : 0 ≤ z) (hs : 0 ≤ s) {a b : ℕ}
    (hab : a ≤ b) : forecastMargin z s a ≤ forecastMargin z s b :=
  mul_le_mul_of_nonneg_left (Real.sqrt_le_sqrt (by exact_mod_cast hab))
    (mul_nonneg hz hs)

/-- C7 (amended): for the baseline model the rounded interval width is
non-decreasing in the step; for the sequence model the unrounded margin
z * val_std * sqrt(step) is non-decreasing and the rounded width can fall
below an earlier width by at most 2e-4 (one unit of the 4-decimal rounding
at each bound) — but, because the point forecast moves between steps, the
rounded width itself is NOT always non-decreasing (see the
counterexample). -/
theorem c7_width_monotonicity_amended :
    (∀ (span : ℕ) (p : PSeries) (st : SimpleForecaster.FitState) (z : ℝ)
        (periods i j : ℕ),
      SimpleForecaster.fit span p = .ok st → 0 ≤ z → i ≤ j → j < periods →
      widthAt (SimpleForecaster.forecast z st periods) i ≤
        widthAt (SimpleForecaster.forecast z st periods) j) ∧
    (∀ (predict : List ℚ → ℚ) (lb : ℕ) (ts : ℚ) (p : PSeries)
        (st : LSTMForecastor.FitState) (z : ℝ) (periods i j : ℕ),
      LSTMForecastor.fit predict lb ts p = .ok st → 0 ≤ z → i ≤ j → j < periods →
      forecastMargin z (LSTMForecastor.valStd st) (i + 1) ≤
        forecastMargin z (LSTMForecastor.valStd st) (j + 1) ∧
      widthAt (LSTMForecastor.forecast predict z st periods) i - 2/10000 ≤
        widthAt (LSTMForecastor.forecast predict z st periods) j) := by
  constructor
  · intro span p st z periods i j _hfit hz hij hj
    have hi : i < periods := lt_of_le_of_lt hij hj
    have hmono := forecastMargin_mono hz (residualStd_nonneg st)
      (by omega : i + 1 ≤ j + 1)
    unfold widthAt SimpleForecaster.forecast
    dsimp only
    rw [getD_map_range _ hi, getD_map_range _ hi, getD_map_range _ hj,
        getD_map_range _ hj]
    have h1 := round4_mono (by linarith :
      (st.lastEma : ℝ) + forecastMargin z (SimpleForecaster.residualStd st) (i + 1) ≤
      (st.lastEma : ℝ) + forecastMargin z (SimpleForecaster.residualStd st) (j + 1))
    have h2 := round4_mono (by linarith :
      (st.lastEma : ℝ) - forecastMargin z (SimpleForecaster.residualStd st) (j + 1) ≤
      (st.lastEma : ℝ) - forecastMargin z (SimpleForecaster.residualStd st) (i + 1))
    linarith
  · intro predict lb ts p st z periods i j hfit hz hij hj
    have hi : i < periods := lt_of_le_of_lt hij hj
    have hs := LSTMForecastor.valStd_nonneg hfit
    have hmono := forecastMargin_mono hz hs (by omega : i + 1 ≤ j + 1)
    refine ⟨hmono, ?_⟩
    unfold widthAt
    rw [lstm_forecast_lower_getD predict z st periods i hi,
        lstm_forecast_upper_getD predict z st periods i hi,
        lstm_forecast_lower_getD predict z st periods j hj,
        lstm_forecast_upper_getD predict z st periods j hj]
    have b1 := round4_le ((((LSTMForecastor.rawPreds predict st.lookback
      (st.scaledPrices.drop (st.scaledPrices.length - st.lookback)) periods).map
        (fun v => v * st.scalerD + st.scalerMin)).getD i 0 : ℝ) +
      forecastMargin z (LSTMForecastor.valStd st) (i + 1))
    have b2 := le_round4 ((((LSTMForecastor.rawPreds predict st.lookback
      (st.scaledPrices.drop (st.scaledPrices.length - st.lookback)) periods).map
        (fun v => v * st.scalerD + st.scalerMin)).getD i 0 : ℝ) -
      forecastMargin z (LSTMForecastor.valStd st) (i + 1))
    have b3 := le_round4 ((((LSTMForecastor.rawPreds predict st.lookback
      (st.scaledPrices.drop (st.scaledPrices.length - st.lookback)) periods).map
        (fun v => v * st.scalerD + st.scalerMin)).getD j 0 : ℝ) +
      forecastMargin z (LSTMForecastor.valStd st) (j + 1))
    have b4 := round4_le ((((LSTMForecastor.rawPreds predict st.lookback
      (st.scaledPrices.drop (st.scaledPrices.length - st.lookback)) periods).map
        (fun v => v * st.scalerD + st.scalerMin)).getD j 0 : ℝ) -
      forecastMargin z (LSTMForecastor.valStd st) (j + 1))
    linarith

/-- Counterexample for C7 as stated: a concrete fitted sequence model
(z = 2, a legitimate critical value for a confidence level in [0.5, 0.99])
whose rounded interval width at step 2 is strictly SMALLER than at step 1 —
interval width is not non-decreasing for the sequence model, because the
point forecast moves between steps and the bounds are rounded to 4
decimals. -/
theorem c7_lstm_width_decreases_counterexample :
    LSTMForecastor.fit cePredict 2 0 ceSeries = Except.ok ceState ∧
    (0 : ℝ) ≤ 2 ∧
    widthAt (LSTMForecastor.forecast cePredict 2 ceState 2) 1 <
      widthAt (LSTMForecastor.forecast cePredict 2 ceState 2) 0 := by
  refine ⟨ceState_fit, by norm_num, ?_⟩
  have hseq : ceState.scaledPrices.drop (ceState.scaledPrices.length - ceState.lookback) =
      [0, 1/2] := rfl
  have hraw : LSTMForecastor.rawPreds cePredict ceState.lookback
      ((0 : ℚ) :: (1/2 : ℚ) :: []) 2 = [1/12, 0] := by
    norm_num [LSTMForecastor.rawPreds, cePredict, ceState]
  have hpts : ([1/12, 0] : List ℚ).map
      (fun v => v * ceState.scalerD + ceState.scalerMin) = [1/40000, 0] := by
    norm_num [ceState]
  have hvs : LSTMForecastor.valStd ceState = ((3/200000 : ℚ) : ℝ) := by
    simp [LSTMForecastor.valStd, ceState]
  have s2_pos : (0 : ℝ) < Real.sqrt 2 := Real.sqrt_pos.mpr (by norm_num)
  have s2_sq : Real.sqrt 2 ^ 2 = 2 := Real.sq_sqrt (by norm_num)
  have s2_lt : Real.sqrt 2 < 5/3 := by nlinarith [Real.sqrt_nonneg 2]
  have hm1 : forecastMargin 2 (LSTMForecastor.valStd ceState) 1 = (3 : ℝ)/100000 := by
    rw [hvs]
    unfold forecastMargin
    rw [Nat.cast_one, Real.sqrt_one]
    push_cast
    ring
  have hm2 : forecastMargin 2 (LSTMForecastor.valStd ceState) 2 =
      (3 : ℝ)/100000 * Real.sqrt 2 := by
    rw [hvs]
    unfold forecastMargin
    push_cast
    ring
  have hA : round4 ((((0 : ℚ)) : ℝ) + (3 : ℝ)/100000 * Real.sqrt 2) = 0 := by
    unfold round4
    rw [show ((((0 : ℚ)) : ℝ) + (3 : ℝ)/100000 * Real.sqrt 2) * 10000 =
        3/10 * Real.sqrt 2 by push_cast; ring]
    rw [rhe_eq_low 0 (by push_cast; positivity) (by push_cast; nlinarith)]
    norm_num
  have hB : round4 ((((0 : ℚ)) : ℝ) - (3 : ℝ)/100000 * Real.sqrt 2) = 0 := by
    unfold round4
    rw [show ((((0 : ℚ)) : ℝ) - (3 : ℝ)/100000 * Real.sqrt 2) * 10000 =
        -(3/10 * Real.sqrt 2) by push_cast; ring]
    rw [rhe_eq_high (-1) (by push_cast; nlinarith) (by push_cast; nlinarith)]
    norm_num
  have hC : round4 ((((1/40000 : ℚ)) : ℝ) + (3 : ℝ)/100000) = 1/10000 := by
    unfold round4
    rw [show ((((1/40000 : ℚ)) : ℝ) + (3 : ℝ)/100000) * 10000 = 11/20 by
      push_cast; ring]
    rw [rhe_eq_high 0 (by push_cast; norm_num) (by push_cast; norm_num)]
    norm_num
  have hD : round4 ((((1/40000 : ℚ)) : ℝ) - (3 : ℝ)/100000) = 0 := by
    unfold round4
    rw [show ((((1/40000 : ℚ)) : ℝ) - (3 : ℝ)/100000) * 10000 = -(1/20) by
      push_cast; ring]
    rw [rhe_eq_high (-1) (by push_cast; norm_num) (by push_cast; norm_num)]
    norm_num
  have w1 : widthAt (LSTMForecastor.forecast cePredict 2 ceState 2) 1 = 0 := by
    unfold widthAt
    rw [lstm_forecast_lower_getD cePredict 2 ceState 2 1 (by norm_num),
        lstm_forecast_upper_getD cePredict 2 ceState 2 1 (by norm_num),
        hseq, hraw, hpts]
    rw [show ([1/40000, 0] : List ℚ).getD 1 0 = 0 from rfl, hm2, hA, hB]
    ring
  have w0 : widthAt (LSTMForecastor.forecast cePredict 2 ceState 2) 0 = 1/10000 := by
    unfold widthAt
    rw [lstm_forecast_lower_getD cePredict 2 ceState 2 0 (by norm_num),
        lstm_forecast_upper_getD cePredict 2 ceState 2 0 (by norm_num),
        hseq, hraw, hpts]
    rw [show ([1/40000, 0] : List ℚ).getD 0 0 = 1/40000 from rfl, hm1, hC, hD]
    ring
  rw [w0, w1]
  norm_num

/-- Witness for C7 (amended) at concrete fitted models, steps 1 and 2. -/
theorem c7_width_monotonicity_amended_witness :
    (widthAt (SimpleForecaster.forecast 2 wSimpleSt 3) 0 ≤
       widthAt (SimpleForecaster.forecast 2 wSimpleSt 3) 2) ∧
    (forecastMargin 2 (LSTMForecastor.valStd ceState) 1 ≤
       forecastMargin 2 (LSTMForecastor.valStd ceState) 2 ∧
     widthAt (LSTMForecastor.forecast cePredict 2 ceState 3) 0 - 2/10000 ≤
       widthAt (LSTMForecastor.forecast cePredict 2 ceState 3) 1) :=
  ⟨c7_width_monotonicity_amended.1 1 wSeries3 wSimpleSt 2 3 0 2 wSimpleSt_fit
     (by norm_num) (by norm_num) (by norm_num),
   c7_width_monotonicity_amended.2 cePredict 2 0 ceSeries ceState 2 3 0 1 ceState_fit
     (by norm_num) (by norm_num) (by norm_num)⟩

/-- C4: sync_asset classifies its failures — an unavailable assets table
makes it raise the StoreUnavailable-class error (RuntimeError) before
anything else, an empty provider history makes it raise the NotFound-class
error (ValueError), and the two signals are distinct, so a caller can tell
a bad symbol apart from an infrastructure failure. -/
theorem c4_sync_error_classification :
    (∀ (st : Store) (symbol assetType : String) (history : List HistRow) (now : ℤ),
      st.assetsAvailable = false →
      Coordinator.sync_asset st symbol assetType history now =
        (st, .error .storeUnavailable)) ∧
    (∀ (st : Store) (symbol assetType : String) (now : ℤ),
      st.assetsAvailable = true →
      (Coordinator.sync_asset st symbol assetType [] now).2 = .error .notFound) ∧
    SyncError.notFound ≠ SyncError.storeUnavailable := by
  refine ⟨?_, ?_, by simp⟩
  · intro st symbol assetType history now h
    unfold Coordinator.sync_asset Coordinator.get_or_create_asset
    rw [if_pos h]
  · intro st symbol assetType now h
    unfold Coordinator.sync_asset Coordinator.get_or_create_asset
    rw [if_neg (by simp [h])]
    cases hf : st.assets.find? (fun a => a.symbol == symbol) <;> simp

/-- Witness for C4: both failure classes at concrete stores. -/
theorem c4_sync_error_classification_witness :
    Coordinator.sync_asset downAssetsStore "AAPL" "stock" histOne 0 =
      (downAssetsStore, .error .storeUnavailable) ∧
    (Coordinator.sync_asset emptyStore "AAPL" "stock" [] 0).2 = .error .notFound :=
  ⟨c4_sync_error_classification.1 downAssetsStore "AAPL" "stock" histOne 0 rfl,
   c4_sync_error_classification.2.1 emptyStore "AAPL" "stock" 0 rfl⟩

/-- C10: sync of an unknown symbol with an empty upstream history is not
atomic — the call fails with the NotFound-class error, but only after the
asset row has been created and persisted with the symbol as its default
name and "USD" as its default currency, and without its last-synced
timestamp being stamped. -/
theorem c10_failed_sync_leaves_created_asset :
    ∀ (st : Store) (symbol assetType : String) (now : ℤ),
      st.assetsAvailable = true →
      st.assets.find? (fun a => a.symbol == symbol) = none →
      Coordinator.sync_asset st symbol assetType [] now =
        ({ st with
            assets := st.assets ++
              [⟨st.nextId, symbol, assetType, symbol, some "USD", none⟩],
            nextId := st.nextId + 1 },
         .error .notFound) := by
  intro st symbol assetType now h hf
  unfold Coordinator.sync_asset Coordinator.get_or_create_asset
  rw [if_neg (by simp [h]), hf]
  simp

/-- Witness for C10: syncing an unknown symbol against an empty history on
an empty store fails with NotFound yet leaves the created asset row. -/
theorem c10_failed_sync_leaves_created_asset_witness :
    Coordinator.sync_asset emptyStore "MSFT" "stock" [] 5 =
      ({ emptyStore with
          assets := [⟨0, "MSFT", "stock", "MSFT", some "USD", none⟩],
          nextId := 1 },
       .error .notFound) :=
  c10_failed_sync_leaves_created_asset emptyStore "MSFT" "stock" 5 rfl rfl

/-- C9: the two coordinator implementations diverge on failure semantics.
The data_coordinator.py variant never reports anything — its return value
is None on every path, in particular on the three failure conditions —
while the coordinator.py variant raises a typed error on each: NotFound for
an empty history, StoreUnavailable when the asset row cannot be resolved,
and the propagated upsert exception when the price write fails.  The two
sync_asset functions are therefore not behaviorally equivalent on failure
paths. -/
theorem c9_coordinator_variants_diverge :
    (∀ (st : Store) (symbol assetType : String) (history : List HistRow) (now : ℤ),
      (DataCoordinator.sync_asset st symbol assetType history now).2 = none) ∧
    ((Coordinator.sync_asset emptyStore "AAPL" "stock" [] 0).2 = .error .notFound ∧
     (DataCoordinator.sync_asset emptyStore "AAPL" "stock" [] 0).2 = none) ∧
    ((Coordinator.sync_asset downAssetsStore "AAPL" "stock" histOne 0).2 =
        .error .storeUnavailable ∧
     (DataCoordinator.sync_asset downAssetsStore "AAPL" "stock" histOne 0).2 = none) ∧
    ((Coordinator.sync_asset downPricesStore "AAPL" "stock" histOne 0).2 =
        .error .upsertFailed ∧
     (DataCoordinator.sync_asset downPricesStore "AAPL" "stock" histOne 0).2 = none) := by
  refine ⟨?_, ⟨rfl, rfl⟩, ⟨rfl, rfl⟩, ⟨rfl, rfl⟩⟩
  intro st symbol assetType history now
  unfold DataCoordinator.sync_asset
  rcases hg : DataCoordinator.get_or_create_asset st symbol assetType with ⟨st1, r⟩
  cases r with
  | none => simp
  | some assetId =>
    dsimp only
    split
    · rfl
    · split
      · rfl
      · rfl

/-- Witness for C9: the silent variant reports nothing on a successful sync
either. -/
theorem c9_coordinator_variants_diverge_witness :
    (DataCoordinator.sync_asset emptyStore "TSLA" "stock" histOne 3).2 = none :=
  c9_coordinator_variants_diverge.1 emptyStore "TSLA" "stock" histOne 3

/-! ### Helper lemmas: the upsert as a deduplicating merge -/

theorem sameKey_iff (r p : PriceRow) :
    sameKey r p = true ↔ (p.assetId = r.assetId ∧ p.timestamp = r.timestamp) := by
  simp [sameKey]

theorem upsertOne_any_same (table : List PriceRow) (r : PriceRow) :
    (upsertOne table r).any (sameKey r) = true := by
  unfold upsertOne
  split_ifs with h
  · obtain ⟨p, hp, hpk⟩ := List.any_eq_true.mp h
    refine List.any_eq_true.mpr ⟨r, ?_, ?_⟩
    · refine List.mem_map.mpr ⟨p, hp, ?_⟩
      rw [if_pos hpk]
    · rw [sameKey_iff]
      exact ⟨rfl, rfl⟩
  · refine List.any_eq_true.mpr ⟨r, by simp, ?_⟩
    rw [sameKey_iff]
    exact ⟨rfl, rfl⟩

theorem upsertOne_any_preserve (table : List PriceRow) (r s : PriceRow)
    (h : table.any (sameKey s) = true) :
    (upsertOne table r).any (sameKey s) = true := by
  unfold upsertOne
  obtain ⟨p, hp, hps⟩ := List.any_eq_true.mp h
  split_ifs with hr
  · refine List.any_eq_true.mpr ?_
    by_cases hrp : sameKey r p = true
    · refine ⟨r, List.mem_map.mpr ⟨p, hp, by rw [if_pos hrp]⟩, ?_⟩
      rw [sameKey_iff] at hrp hps ⊢
      omega
    · refine ⟨p, List.mem_map.mpr ⟨p, hp, by rw [if_neg hrp]⟩, hps⟩
  · exact List.any_eq_true.mpr ⟨p, by simp [hp], hps⟩

theorem upsertAll_any_preserve (records : List PriceRow) (table : List PriceRow)
    (s : PriceRow) (h : table.any (sameKey s) = true) :
    (upsertAll table records).any (sameKey s) = true := by
  induction records generalizing table with
  | nil => exact h
  | cons r rest ih => exact ih (upsertOne table r) (upsertOne_any_preserve table r s h)

theorem upsertAll_any_mem (records : List PriceRow) (table : List PriceRow)
    (r : PriceRow) (h : r ∈ records) :
    (upsertAll table records).any (sameKey r) = true := by
  induction records generalizing table with
  | nil => cases h
  | cons s rest ih =>
    rcases List.mem_cons.mp h with heq | hmem
    · subst heq
      exact upsertAll_any_preserve rest (upsertOne table r) r
        (upsertOne_any_same table r)
    · exact ih (upsertOne table s) hmem

theorem filter_length_map_congr (f : PriceRow → PriceRow) (q : PriceRow → Bool)
    (l : List PriceRow) (h : ∀ p ∈ l, q (f p) = q p) :
    ((l.map f).filter q).length = (l.filter q).length := by
  induction l with
  | nil => rfl
  | cons p t ih =>
    have hp := h p (by simp)
    have ht := ih fun x hx => h x (by simp [hx])
    rw [List.map_cons, List.filter_cons, List.filter_cons, hp]
    split <;> simp [ht]

theorem upsertOne_filter_length_of_present (table : List PriceRow) (r : PriceRow)
    (h : table.any (sameKey r) = true) (aid : ℕ) :
    ((upsertOne table r).filter (fun p => p.assetId == aid)).length =
      (table.filter (fun p => p.assetId == aid)).length := by
  unfold upsertOne
  rw [if_pos h]
  refine filter_length_map_congr _ _ _ ?_
  intro p _
  by_cases hrp : sameKey r p = true
  · rw [if_pos hrp]
    rw [sameKey_iff] at hrp
    rw [hrp.1]
  · rw [if_neg hrp]

theorem upsertAll_filter_length_of_present (records : List PriceRow)
    (table : List PriceRow) (h : ∀ r ∈ records, table.any (sameKey r) = true)
    (aid : ℕ) :
    ((upsertAll table records).filter (fun p => p.assetId == aid)).length =
      (table.filter (fun p => p.assetId == aid)).length := by
  induction records generalizing table with
  | nil => rfl
  | cons s rest ih =>
    have hs := h s (by simp)
    calc ((upsertAll (upsertOne table s) rest).filter
            (fun p => p.assetId == aid)).length
        = ((upsertOne table s).filter (fun p => p.assetId == aid)).length := by
          refine ih (upsertOne table s) ?_ 
          intro r hr
          exact upsertOne_any_preserve table s r (h r (by simp [hr]))
      _ = (table.filter (fun p => p.assetId == aid)).length :=
          upsertOne_filter_length_of_present table s hs aid

/-! ### Helper lemmas: asset resolution across syncs -/

theorem gor_fields {st : Store} {symbol assetType : String} {st1 : Store}
    {r : Except SyncError ℕ}
    (hg : Coordinator.get_or_create_asset st symbol assetType = (st1, r)) :
    st1.pricesAvailable = st.pricesAvailable ∧
    st1.assetsAvailable = st.assetsAvailable ∧ st1.prices = st.prices := by
  unfold Coordinator.get_or_create_asset at hg
  split_ifs at hg with h
  · injection hg with h1 h2
    subst h1
    exact ⟨rfl, rfl, rfl⟩
  · split at hg <;> injection hg with h1 h2 <;> subst h1 <;> exact ⟨rfl, rfl, rfl⟩

theorem gor_found {st : Store} {symbol assetType : String} {a : Asset}
    (hA : st.assetsAvailable = true)
    (hf : st.assets.find? (fun x => x.symbol == symbol) = some a) :
    Coordinator.get_or_create_asset st symbol assetType = (st, .ok a.id) := by
  unfold Coordinator.get_or_create_asset
  rw [if_neg (by simp [hA]), hf]

theorem gor_available_ok (st : Store) (symbol assetType : String)
    (hA : st.assetsAvailable = true) :
    ∃ st1 aid, Coordinator.get_or_create_asset st symbol assetType = (st1, .ok aid) := by
  unfold Coordinator.get_or_create_asset
  rw [if_neg (by simp [hA])]
  cases st.assets.find? (fun x => x.symbol == symbol) <;> exact ⟨_, _, rfl⟩

theorem gor_ok_find {st : Store} {symbol assetType : String} {st1 : Store} {aid : ℕ}
    (hg : Coordinator.get_or_create_asset st symbol assetType = (st1, .ok aid)) :
    ∃ b : Asset, st1.assets.find? (fun x => x.symbol == symbol) = some b ∧
      b.id = aid := by
  unfold Coordinator.get_or_create_asset at hg
  split_ifs at hg with h
  · injection hg with h1 h2
    exact absurd h2 (by simp)
  · cases hfind : st.assets.find? (fun x => x.symbol == symbol) with
    | some a =>
      rw [hfind] at hg
      injection hg with h1 h2
      subst h1
      injection h2 with h3
      exact ⟨a, hfind, h3⟩
    | none =>
      rw [hfind] at hg
      injection hg with h1 h2
      subst h1
      injection h2 with h3
      refine ⟨⟨st.nextId, symbol, assetType, symbol, some "USD", none⟩, ?_, h3⟩
      show ((st.assets ++ [_]).find? _) = _
      rw [List.find?_append, hfind]
      simp

theorem find?_stamp (l : List Asset) (aid : ℕ) (now : ℤ) (symbol : String) :
    (l.map (fun a => if a.id = aid then { a with lastUpdated := some now } else a)).find?
        (fun x => x.symbol == symbol) =
      (l.find? (fun x => x.symbol == symbol)).map
        (fun a => if a.id = aid then { a with lastUpdated := some now } else a) := by
  rw [List.find?_map]
  have hpred : ((fun x : Asset => x.symbol == symbol) ∘
      (fun a : Asset => if a.id = aid then { a with lastUpdated := some now } else a)) =
      (fun x : Asset => x.symbol == symbol) := by
    funext a
    show ((if a.id = aid then { a with lastUpdated := some now } else a).symbol == symbol) = _
    split <;> rfl
  rw [hpred]

theorem stamp_gor {st1 : Store} {symbol assetType : String} {aid : ℕ} {b : Asset}
    (newPrices : List PriceRow) (now1 : ℤ)
    (hA1 : st1.assetsAvailable = true)
    (hfind : st1.assets.find? (fun x => x.symbol == symbol) = some b)
    (hb : b.id = aid) :
    Coordinator.get_or_create_asset
        (stampAsset { st1 with prices := newPrices } aid now1) symbol assetType =
      (stampAsset { st1 with prices := newPrices } aid now1, .ok aid) := by
  have hA2 : (stampAsset { st1 with prices := newPrices } aid now1).assetsAvailable =
      true := hA1
  have hf2 : (stampAsset { st1 with prices := newPrices } aid now1).assets.find?
      (fun x => x.symbol == symbol) =
      some (if b.id = aid then { b with lastUpdated := some now1 } else b) := by
    show (st1.assets.map _).find? _ = _
    rw [find?_stamp, hfind]
    rfl
  have hid : (if b.id = aid then { b with lastUpdated := some now1 } else b).id = aid := by
    rw [if_pos hb]
    exact hb
  rw [gor_found hA2 hf2, hid]

theorem sync_ok_shape {st : Store} {symbol assetType : String} {st1 : Store} {aid : ℕ}
    (history : List HistRow) (now : ℤ)
    (hg : Coordinator.get_or_create_asset st symbol assetType = (st1, .ok aid))
    (hP : st1.pricesAvailable = true) (hne : history ≠ []) :
    Coordinator.sync_asset st symbol assetType history now =
      (stampAsset { st1 with
          prices := upsertAll st1.prices (history.map (toPriceRow aid)) } aid now,
       .ok (history.map (toPriceRow aid)).length) := by
  unfold Coordinator.sync_asset
  rw [hg]
  dsimp only
  rw [if_neg (by simp [hne]), if_neg (by simp [hP])]

/-- C3: sync_asset is idempotent with respect to the cached observations —
against an unchanged upstream history, both calls return the history's row
count (so the second call returns the same count as the first), and the
second call leaves the number of cached price rows of every asset
unchanged, because the upsert keyed on (asset_id, timestamp) overwrites
rows whose keys are already present instead of duplicating them. -/
theorem c3_sync_idempotent :
    ∀ (st : Store) (symbol assetType : String) (history : List HistRow)
      (now1 now2 : ℤ),
      st.assetsAvailable = true → st.pricesAvailable = true → history ≠ [] →
      (Coordinator.sync_asset st symbol assetType history now1).2 =
        .ok history.length ∧
      (Coordinator.sync_asset
          (Coordinator.sync_asset st symbol assetType history now1).1
          symbol assetType history now2).2 = .ok history.length ∧
      (∀ aid, assetRowCount
          (Coordinator.sync_asset
            (Coordinator.sync_asset st symbol assetType history now1).1
            symbol assetType history now2).1 aid =
        assetRowCount (Coordinator.sync_asset st symbol assetType history now1).1
          aid) := by
  intro st symbol assetType history now1 now2 hA hP hne
  obtain ⟨st1, aid, hg⟩ := gor_available_ok st symbol assetType hA
  have hfields := gor_fields hg
  have hP1 : st1.pricesAvailable = true := by rw [hfields.1, hP]
  have hA1 : st1.assetsAvailable = true := by rw [hfields.2.1, hA]
  have h1 := sync_ok_shape history now1 hg hP1 hne
  obtain ⟨b, hbf, hbid⟩ := gor_ok_find hg
  have hg2 := @stamp_gor st1 symbol assetType aid b
    (upsertAll st1.prices (history.map (toPriceRow aid))) now1 hA1 hbf hbid
  have hP2 : (stampAsset { st1 with
      prices := upsertAll st1.prices (history.map (toPriceRow aid)) }
      aid now1).pricesAvailable = true := hP1
  have h2 := sync_ok_shape history now2 hg2 hP2 hne
  rw [h1]
  refine ⟨by simp, ?_, ?_⟩
  · rw [h2]
    simp
  · intro aid2
    rw [h2]
    show ((upsertAll (upsertAll st1.prices (history.map (toPriceRow aid)))
        (history.map (toPriceRow aid))).filter (fun p => p.assetId == aid2)).length =
      ((upsertAll st1.prices (history.map (toPriceRow aid))).filter
        (fun p => p.assetId == aid2)).length
    refine upsertAll_filter_length_of_present _ _ ?_ aid2
    intro r hr
    exact upsertAll_any_mem _ st1.prices r hr

/-- Witness for C3: two syncs of the same one-row history on an empty store
both report one row and the second leaves all per-asset row counts
unchanged. -/
theorem c3_sync_idempotent_witness :
    (Coordinator.sync_asset emptyStore "AAPL" "stock" histOne 1).2 = .ok 1 ∧
    (Coordinator.sync_asset
        (Coordinator.sync_asset emptyStore "AAPL" "stock" histOne 1).1
        "AAPL" "stock" histOne 2).2 = .ok 1 ∧
    (∀ aid, assetRowCount
        (Coordinator.sync_asset
          (Coordinator.sync_asset emptyStore "AAPL" "stock" histOne 1).1
          "AAPL" "stock" histOne 2).1 aid =
      assetRowCount (Coordinator.sync_asset emptyStore "AAPL" "stock" histOne 1).1
        aid) :=
  c3_sync_idempotent emptyStore "AAPL" "stock" histOne 1 2 rfl rfl (by simp [histOne])
